import Mathlib

/-!
# Verification of the notes-app task-lifecycle core

Shallow embedding of the backend's task-lifecycle and column-ownership
subsystem (repositories `task.repository.js`, `board.repository.js`,
`column.repository.js`, services `task.service.js`, `board.service.js`,
controllers `task.controller.js`), together with proofs of the spec's
testable properties.

The relational store (PostgreSQL tables `boards`, `columns`, `tasks`) is
modelled as lists of rows inside a `Store` structure; SQL `NOW()` is an
explicit clock field `now`, and the `gen_random_uuid()` primary-key
default is modelled as a fresh-id counter `next_id`.  `NULL`-able SQL
columns are `Option` fields.  JavaScript values that the code
distinguishes only up to truthiness / `Number.isNaN` are modelled by
small inductive types (`JsVal`, `MovePos`).
-/

namespace NotesApp

/-- A row of the `boards` table (`id`, `owner_id`, `name`). -/
structure Board where
  id : Nat
  owner_id : Nat
  name : String
  deriving Repr, DecidableEq

/-- A row of the `columns` table (`id`, `board_id`, `name`, `slug`, `position`). -/
structure Column where
  id : Nat
  board_id : Nat
  name : String
  slug : String
  position : Nat
  deriving Repr, DecidableEq

/-- A row of the `tasks` table. `description` and `deleted_at` are nullable. -/
structure Task where
  id : Nat
  board_id : Nat
  column_id : Nat
  title : String
  description : Option String
  position : Int
  color : String
  is_deleted : Bool
  deleted_at : Option Nat
  created_at : Nat
  updated_at : Nat
  deriving Repr, DecidableEq

/-- The relational store: the three tables the core touches, a fresh-id
counter standing for `gen_random_uuid()`, and a clock standing for `NOW()`. -/
structure Store where
  boards : List Board
  columns : List Column
  tasks : List Task
  next_id : Nat
  now : Nat
  deriving Repr, DecidableEq

/-- Error kinds thrown by the services (`err.status` 404/403/400 in the code). -/
inductive Err where
  | NotFound
  | Forbidden
  | ValidationError
  deriving Repr, DecidableEq

/-- The HTTP status the code attaches to each error kind. -/
def Err.status : Err → Nat
  | .NotFound => 404
  | .Forbidden => 403
  | .ValidationError => 400

/-- A JavaScript request-body value as far as the code distinguishes it:
`undefined`, `null`, or a string.  The pg driver sends both `undefined`
and `null` as SQL `NULL`. -/
inductive JsVal where
  | undefined
  | null
  | str (s : String)
  deriving Repr, DecidableEq

/-- JavaScript truthiness test `!v` restricted to `JsVal`:
`undefined`, `null` and `""` are falsy. -/
def JsVal.falsy : JsVal → Bool
  | .undefined => true
  | .null => true
  | .str s => s == ""

/-- The SQL parameter the pg driver sends for a `JsVal`: both `undefined`
and `null` become SQL `NULL`. -/
def JsVal.toSql : JsVal → Option String
  | .undefined => none
  | .null => none
  | .str s => some s

/-- The `new_position` value of a Move request as far as
`!positionToUse || Number.isNaN(Number(positionToUse))` distinguishes it:
absent (`undefined`/`null`), a value whose `Number(...)` is `NaN`
(e.g. a non-numeric string; `NaN` itself is already falsy), or a numeric
value, modelled as an integer. -/
inductive MovePos where
  | absent
  | nonNumeric
  | intVal (v : Int)
  deriving Repr, DecidableEq

/-- Returns `true` iff `moveTaskForUser`'s guard
`!positionToUse || Number.isNaN(Number(positionToUse))` holds, i.e. the
service falls back to `getNextPositionForColumn`.  For a number this is
the case exactly when it is `0` (the only falsy integer). -/
def MovePos.usesFallback : MovePos → Bool
  | .absent => true
  | .nonNumeric => true
  | .intVal v => v == 0

/-- The position `moveTaskForUser` actually applies: the supplied numeric
value when the guard rejects the fallback, else `fallbackPos`. -/
def effectiveMovePosition (np : MovePos) (fallbackPos : Int) : Int :=
  match np with
  | .intVal v => if v == 0 then fallbackPos else v
  | _ => fallbackPos

/-! ## Repository layer (`*.repository.js`) -/

/-- Embedding of `board.repository.js` / `findBoardByOwnerId`:
`SELECT * FROM boards WHERE owner_id = $1`, first row or `null`. -/
def findBoardByOwnerId (s : Store) (ownerId : Nat) : Option Board :=
  s.boards.find? (fun b => b.owner_id == ownerId)

/-- Embedding of `column.repository.js` / `findColumnById`:
`SELECT ... FROM columns WHERE id = $1`, first row or `null`. -/
def findColumnById (s : Store) (columnId : Nat) : Option Column :=
  s.columns.find? (fun c => c.id == columnId)

/-- Embedding of `task.repository.js` / `findTodoColumnForUser`: resolves the user's
board, then `SELECT ... FROM columns WHERE board_id = $1 AND slug = 'TODO'
LIMIT 1`; returns `null` when the board is missing, else the pair
`{ board, column }` where `column` may itself be `null`. -/
def findTodoColumnForUser (s : Store) (userId : Nat) : Option (Board × Option Column) :=
  match findBoardByOwnerId s userId with
  | none => none
  | some board =>
    some (board, s.columns.find? (fun c => c.board_id == board.id && c.slug == "TODO"))

/-- SQL `MAX(position)` over the active tasks of a column
(`WHERE column_id = $1 AND is_deleted = false`); `none` when no row matches. -/
def maxActivePosition (columnId : Nat) : List Task → Option Int
  | [] => none
  | t :: ts =>
    let rest := maxActivePosition columnId ts
    if t.column_id == columnId && t.is_deleted == false then
      some (match rest with
            | none => t.position
            | some m => max t.position m)
    else rest

/-- Embedding of `task.repository.js` / `getNextPositionForColumn`:
`SELECT COALESCE(MAX(position), 0) + 1 FROM tasks
 WHERE column_id = $1 AND is_deleted = false`. -/
def getNextPositionForColumn (s : Store) (columnId : Nat) : Int :=
  (maxActivePosition columnId s.tasks).getD 0 + 1

/-- Embedding of `task.repository.js` / `createTask`: `INSERT INTO tasks ... RETURNING *`.
The new row gets a fresh id, `is_deleted = false` and `created_at`/`updated_at`
defaults of `NOW()`. -/
def createTask (s : Store) (boardId columnId : Nat) (title : String)
    (description : Option String) (position : Int) (color : String) : Task × Store :=
  let t : Task :=
    { id := s.next_id, board_id := boardId, column_id := columnId,
      title := title, description := description, position := position,
      color := color, is_deleted := false, deleted_at := none,
      created_at := s.now, updated_at := s.now }
  (t, { s with tasks := s.tasks ++ [t], next_id := s.next_id + 1 })

/-- The `JOIN boards b ON t.board_id = b.id ... AND b.owner_id = $2` part of
`findTaskByIdForUser`: whether the task's board exists and is owned by `userId`. -/
def taskOwnedBy (s : Store) (t : Task) (userId : Nat) : Bool :=
  (s.boards.find? (fun b => b.id == t.board_id)).any (fun b => b.owner_id == userId)

/-- Embedding of `task.repository.js` / `findTaskByIdForUser`:
`SELECT t.* FROM tasks t JOIN boards b ON t.board_id = b.id
 WHERE t.id = $1 AND b.owner_id = $2 AND t.is_deleted = false`,
first row or `null`.  This is the single authorization checkpoint. -/
def findTaskByIdForUser (s : Store) (taskId userId : Nat) : Option Task :=
  s.tasks.find? (fun t => t.id == taskId && taskOwnedBy s t userId && t.is_deleted == false)

/-- Embedding of `task.repository.js` / `moveTaskToColumn`:
`UPDATE tasks SET column_id = $1, position = $2 WHERE id = $3 RETURNING *`.
Note that the statement does not touch `updated_at`. -/
def moveTaskToColumn (s : Store) (taskId targetColumnId : Nat) (newPosition : Int) :
    Option Task × Store :=
  let f := fun (t : Task) =>
    if t.id == taskId then { t with column_id := targetColumnId, position := newPosition }
    else t
  ((s.tasks.find? (fun t => t.id == taskId)).map f, { s with tasks := s.tasks.map f })

/-- Embedding of `task.repository.js` (app.js copy) / `updateTask`:
`UPDATE tasks SET title = COALESCE($1, title),
 description = COALESCE($2, description), updated_at = NOW()
 WHERE id = $3 AND is_deleted = false RETURNING *`. -/
def updateTask (s : Store) (taskId : Nat) (title description : Option String) :
    Option Task × Store :=
  let f := fun (t : Task) =>
    if t.id == taskId && t.is_deleted == false then
      { t with title := title.getD t.title,
               description := match description with
                              | none => t.description
                              | some d => some d,
               updated_at := s.now }
    else t
  ((s.tasks.find? (fun t => t.id == taskId && t.is_deleted == false)).map f,
   { s with tasks := s.tasks.map f })

/-- Embedding of `board.repository.js` / `getActiveTasksByBoardId`:
`SELECT ... FROM tasks WHERE board_id = $1 AND is_deleted = false`.
The SQL `ORDER BY column_id, position` only affects presentation order and
is not modelled. -/
def getActiveTasksByBoardId (s : Store) (boardId : Nat) : List Task :=
  s.tasks.filter (fun t => t.board_id == boardId && t.is_deleted == false)

/-- Embedding of `board.repository.js` / `findDoneColumnForBoard`:
`SELECT ... FROM columns WHERE board_id = $1 AND slug = 'DONE' LIMIT 1`. -/
def findDoneColumnForBoard (s : Store) (boardId : Nat) : Option Column :=
  s.columns.find? (fun c => c.board_id == boardId && c.slug == "DONE")

/-- The `WHERE board_id = $1 AND column_id = $2 AND is_deleted = false`
predicate of the bulk soft-delete statement. -/
def doneHit (boardId doneColumnId : Nat) (t : Task) : Bool :=
  t.board_id == boardId && t.column_id == doneColumnId && t.is_deleted == false

/-- The `SET is_deleted = true, deleted_at = NOW()` effect of the bulk
soft-delete statement on a single row (rows outside the `WHERE` clause are
untouched). -/
def clearDone (boardId doneColumnId nowv : Nat) (t : Task) : Task :=
  if doneHit boardId doneColumnId t then
    { t with is_deleted := true, deleted_at := some nowv }
  else t

/-- Embedding of `board.repository.js` / `softDeleteDoneTasksForBoard`:
`UPDATE tasks SET is_deleted = true, deleted_at = NOW()
 WHERE board_id = $1 AND column_id = $2 AND is_deleted = false RETURNING id`;
returns `rowCount`, the number of rows updated. -/
def softDeleteDoneTasksForBoard (s : Store) (boardId doneColumnId : Nat) : Nat × Store :=
  ((s.tasks.filter (doneHit boardId doneColumnId)).length,
   { s with tasks := s.tasks.map (clearDone boardId doneColumnId s.now) })

/-! ## Service layer (`task.service.js`, `board.service.js`)

Each service call is modelled as a function from a `Store` to a result
paired with the resulting `Store`; a thrown error leaves the store
untouched (the JS code throws before any write on every error path). -/

/-- The four fixed pastel color tokens (`PASTEL_COLORS` in `task.service.js`). -/
def PASTEL_COLORS : List String :=
  ["pastel-yellow", "pastel-pink", "pastel-green", "pastel-blue"]

/-- Embedding of `task.service.js` / `createTaskForUser`.  The random choice made by
`getRandomPastelColor()` is modelled as the explicit `color` argument
(an external oracle); nothing below depends on which color is drawn. -/
def createTaskForUser (s : Store) (userId : Nat) (title : String)
    (description : Option String) (color : String) : Except Err Task × Store :=
  match findTodoColumnForUser s userId with
  | none => (.error .NotFound, s)
  | some (_, none) => (.error .NotFound, s)
  | some (board, some column) =>
    let position := getNextPositionForColumn s column.id
    let (task, s') := createTask s board.id column.id title description position color
    (.ok task, s')

/-- Embedding of `task.service.js` / `moveTaskForUser`: authorize via
`findTaskByIdForUser`, resolve the target column, reject a cross-board
target with a 403, fall back to `getNextPositionForColumn` when
`newPosition` is falsy or `NaN`, then `moveTaskToColumn`.  The repository
may in principle return `null`, which the JS passes straight through,
hence the `Option Task` payload. -/
def moveTaskForUser (s : Store) (userId taskId targetColumnId : Nat)
    (newPosition : MovePos) : Except Err (Option Task) × Store :=
  match findTaskByIdForUser s taskId userId with
  | none => (.error .NotFound, s)
  | some task =>
    match findColumnById s targetColumnId with
    | none => (.error .NotFound, s)
    | some column =>
      if column.board_id != task.board_id then (.error .Forbidden, s)
      else
        let positionToUse :=
          effectiveMovePosition newPosition (getNextPositionForColumn s column.id)
        let (updated, s') := moveTaskToColumn s taskId column.id positionToUse
        (.ok updated, s')

/-- Embedding of `task.service.js` (part copy) / `updateTaskForUser`: authorize via
`findTaskByIdForUser`, then `updateTask` with the raw request values
(which the pg driver turns into SQL `NULL` when `undefined` or `null`). -/
def updateTaskForUser (s : Store) (userId taskId : Nat) (title description : JsVal) :
    Except Err (Option Task) × Store :=
  match findTaskByIdForUser s taskId userId with
  | none => (.error .NotFound, s)
  | some _ =>
    let (updated, s') := updateTask s taskId title.toSql description.toSql
    (.ok updated, s')

/-- Embedding of `board.service.js` / `removeDoneTasksForMyBoard`: resolve the board,
resolve its DONE column, soft-delete the active tasks there and return
the count. -/
def removeDoneTasksForMyBoard (s : Store) (userId : Nat) : Except Err Nat × Store :=
  match findBoardByOwnerId s userId with
  | none => (.error .NotFound, s)
  | some board =>
    match findDoneColumnForBoard s board.id with
    | none => (.error .NotFound, s)
    | some doneColumn =>
      let (removedCount, s') := softDeleteDoneTasksForBoard s board.id doneColumn.id
      (.ok removedCount, s')

/-! ## Controller layer (`task.controller.js`) -/

/-- Embedding of `task.controller.js` / `createTaskController`: `if (!title)` rejects the
request with a 400 before the service runs; otherwise the title string is
passed through unchanged (no trimming anywhere on the path). -/
def createTaskController (s : Store) (userId : Nat) (title description : JsVal)
    (color : String) : Except Err Task × Store :=
  match title with
  | .str t =>
    if t == "" then (.error .ValidationError, s)
    else createTaskForUser s userId t description.toSql color
  | _ => (.error .ValidationError, s)

/-- Embedding of `task.controller.js` / `updateTaskController`:
`if (!title && !description)` rejects with a 400, else delegates to
`updateTaskForUser`. -/
def updateTaskController (s : Store) (userId taskId : Nat) (title description : JsVal) :
    Except Err (Option Task) × Store :=
  if title.falsy && description.falsy then (.error .ValidationError, s)
  else updateTaskForUser s userId taskId title description

/-! ## Derived notions used to state the spec's properties -/

/-- The spec's "title trims to the empty string": every character of the
title is whitespace (equivalently, `title.trim = ""`). -/
def trimsToEmpty (s : String) : Bool :=
  s.toList.all Char.isWhitespace

/-- Payload of one Create request: its own title, its own optional
description, and the color the random oracle draws for that creation. -/
structure CreateReq where
  title : String
  description : Option String
  color : String
  deriving Repr, DecidableEq

/-- Runs one Create operation per element of `reqs` — every request
carrying its own title, description and drawn color — chaining the store
through the service in list order. -/
def createSeq (u : Nat) : List CreateReq → Store → Store
  | [], s => s
  | r :: reqs, s => createSeq u reqs (createTaskForUser s u r.title r.description r.color).2

/-! ## Sample rows and stores used by witnesses and counterexamples -/

/-- Board of user 1. -/
def boardA : Board := { id := 10, owner_id := 1, name := "Personal board" }

/-- Board of user 2. -/
def boardB : Board := { id := 20, owner_id := 2, name := "Personal board" }

/-- TODO column of user 1's board. -/
def colTodoA : Column := { id := 100, board_id := 10, name := "To do", slug := "TODO", position := 1 }

/-- IN_PROGRESS column of user 1's board. -/
def colProgA : Column := { id := 101, board_id := 10, name := "In progress", slug := "IN_PROGRESS", position := 2 }

/-- DONE column of user 1's board. -/
def colDoneA : Column := { id := 102, board_id := 10, name := "Done", slug := "DONE", position := 3 }

/-- TODO column of user 2's board. -/
def colTodoB : Column := { id := 200, board_id := 20, name := "To do", slug := "TODO", position := 1 }

/-- An active task of user 1, in the TODO column. -/
def taskA : Task :=
  { id := 1000, board_id := 10, column_id := 100, title := "Buy milk", description := some ("2 liters"),
    position := 1, color := "pastel-blue", is_deleted := false, deleted_at := none,
    created_at := 5, updated_at := 5 }

/-- Store with two users' boards and one active task of user 1 in TODO. -/
def baseStore : Store :=
  { boards := [boardA, boardB], columns := [colTodoA, colProgA, colDoneA, colTodoB],
    tasks := [taskA], next_id := 1001, now := 10 }

/-- Variant of `baseStore` with no tasks at all. -/
def emptyStore : Store := { baseStore with tasks := [] }

/-- Variant of `baseStore` with the task of user 1 sitting in the DONE column. -/
def doneStore : Store := { baseStore with tasks := [{ taskA with column_id := 102 }] }

/-- State of `taskA` after a soft delete. -/
def taskADeleted : Task := { taskA with is_deleted := true, deleted_at := some 7 }

/-- Variant of `baseStore` with the task of user 1 soft-deleted. -/
def deletedStore : Store := { baseStore with tasks := [taskADeleted] }

/-- Creation payloads of the spec scenario with titles A, B, C: three
requests with pairwise different titles, descriptions and colors. -/
def reqsABC : List CreateReq :=
  [{ title := "A", description := none, color := "pastel-yellow" },
   { title := "B", description := some ("with notes"), color := "pastel-pink" },
   { title := "C", description := none, color := "pastel-green" }]

/-! ## Helper lemmas -/

/-- Merge of two optional maxima: SQL `MAX` over the concatenation of two
row sets. -/
def omax : Option Int → Option Int → Option Int
  | none, r => r
  | some m, none => some m
  | some m, some m' => some (max m m')

lemma omax_assoc (a b c : Option Int) : omax (omax a b) c = omax a (omax b c) := by
  cases a <;> cases b <;> cases c <;> simp [omax, max_assoc]

lemma maxActivePosition_cons (c : Nat) (t : Task) (ts : List Task) :
    maxActivePosition c (t :: ts) =
      if t.column_id == c && t.is_deleted == false then
        omax (some t.position) (maxActivePosition c ts)
      else maxActivePosition c ts := by
  simp only [maxActivePosition]
  cases h : (t.column_id == c && t.is_deleted == false)
  · simp
  · cases hr : maxActivePosition c ts <;> simp [omax, hr]

lemma maxActivePosition_append (c : Nat) (l1 l2 : List Task) :
    maxActivePosition c (l1 ++ l2) = omax (maxActivePosition c l1) (maxActivePosition c l2) := by
  induction l1 with
  | nil => simp [maxActivePosition, omax]
  | cons t ts ih =>
    rw [List.cons_append, maxActivePosition_cons, maxActivePosition_cons, ih]
    cases h : (t.column_id == c && t.is_deleted == false)
    · simp
    · simp [omax_assoc]

lemma maxActivePosition_eq_none (c : Nat) (l : List Task)
    (h : ∀ t ∈ l, t.column_id = c → t.is_deleted = true) :
    maxActivePosition c l = none := by
  induction l with
  | nil => rfl
  | cons t ts ih =>
    rw [maxActivePosition_cons]
    have hts : maxActivePosition c ts = none :=
      ih (fun x hx => h x (List.mem_cons_of_mem _ hx))
    by_cases hc : t.column_id = c
    · have hdel : t.is_deleted = true := h t (List.mem_cons_self t ts) hc
      simp [hc, hdel, hts]
    · simp [hc, hts]

/-- When a list has pairwise-distinct task ids, any search whose predicate
pins the id down to `t.id` and which `t` itself satisfies returns `t`. -/
lemma find?_eq_some_of_unique_id {l : List Task} {t : Task} {q : Task → Bool}
    (hids : (l.map Task.id).Nodup) (htl : t ∈ l) (hqt : q t = true)
    (hqid : ∀ x ∈ l, q x = true → x.id = t.id) : l.find? q = some t := by
  cases hfind : l.find? q with
  | none => exact absurd hqt (List.find?_eq_none.mp hfind t htl)
  | some x =>
    have hx : x ∈ l := List.mem_of_find?_eq_some hfind
    have hxid : x.id = t.id := hqid x hx (List.find?_some hfind)
    have hxt : x = t := List.inj_on_of_nodup_map hids hx htl hxid
    rw [hxt]

/-- Erasing a soft-deleted task from the row set does not change the SQL
`MAX(position)` over active rows: deleted rows are not counted. -/
lemma maxActivePosition_erase (c : Nat) (t : Task) (hdel : t.is_deleted = true) :
    ∀ l : List Task, maxActivePosition c (l.erase t) = maxActivePosition c l := by
  intro l
  induction l with
  | nil => rfl
  | cons x xs ih =>
    rw [List.erase_cons]
    cases hx : (x == t)
    · simp only [Bool.false_eq_true, if_false]
      rw [maxActivePosition_cons, maxActivePosition_cons, ih]
    · simp only [if_true]
      have hxt : x = t := eq_of_beq hx
      rw [maxActivePosition_cons, hxt]
      simp [hdel]

/-- Mapping a row-transformer that keeps ids and never un-deletes a row
preserves "every row with this id is deleted". -/
lemma map_keeps_deleted_id {l : List Task} {t : Task} (g : Task → Task)
    (hg : ∀ y, (g y).id = y.id ∧ ((g y).is_deleted = y.is_deleted ∨ (g y).is_deleted = true))
    (hids : (l.map Task.id).Nodup) (htl : t ∈ l) (hdel : t.is_deleted = true) :
    ∀ x ∈ l.map g, x.id = t.id → x.is_deleted = true := by
  intro x hx hxid
  rcases List.mem_map.mp hx with ⟨y, hy, rfl⟩
  have hyid : y.id = t.id := by rw [← (hg y).1]; exact hxid
  have hyt : y = t := List.inj_on_of_nodup_map hids hy htl hyid
  rcases (hg y).2 with h | h
  · rw [h, hyt]; exact hdel
  · exact h

/-! ## Claim theorems -/

/-- Claim C1 (ownership isolation): for users A ≠ B and an active task on a
board owned by A, a Move or Update issued with B's userId fails with
`NotFound` (and leaves the store untouched): the single `findTaskByIdForUser`
lookup, joined to the board's owner, returns no row for a non-owner, so the
operation never succeeds and never reaches the `Forbidden` branch. -/
theorem nonowner_move_update_notFound
    (s : Store) (t : Task) (b : Board) (userA userB : Nat)
    (ht : t ∈ s.tasks) (hactive : t.is_deleted = false)
    (hids : (s.tasks.map Task.id).Nodup)
    (hb : s.boards.find? (fun bd => bd.id == t.board_id) = some b)
    (hown : b.owner_id = userA) (hne : userA ≠ userB)
    (targetColumnId : Nat) (np : MovePos) (title description : JsVal) :
    moveTaskForUser s userB t.id targetColumnId np = (.error .NotFound, s) ∧
    updateTaskForUser s userB t.id title description = (.error .NotFound, s) := by
  have hnone : findTaskByIdForUser s t.id userB = none := by
    apply List.find?_eq_none.mpr
    intro x hxmem hpx
    simp only [Bool.and_eq_true, beq_iff_eq] at hpx
    obtain ⟨⟨hxid, howned⟩, _⟩ := hpx
    have hxt : x = t := List.inj_on_of_nodup_map hids hxmem ht hxid
    subst hxt
    unfold taskOwnedBy at howned
    rw [hb] at howned
    simp only [Option.any_some, beq_iff_eq] at howned
    exact hne (hown.symm.trans howned)
  constructor
  · unfold moveTaskForUser
    rw [hnone]
  · unfold updateTaskForUser
    rw [hnone]

/-- Witness for C1: in `baseStore`, user 2 moving / updating user 1's task
1000 gets `NotFound` and the store is unchanged. -/
theorem nonowner_move_update_notFound_witness :
    moveTaskForUser baseStore 2 1000 101 .absent = (.error .NotFound, baseStore) ∧
    updateTaskForUser baseStore 2 1000 (.str ("x")) .undefined = (.error .NotFound, baseStore) := by
  have h := nonowner_move_update_notFound baseStore taskA boardA 1 2
    (by decide) (by decide) (by decide) (by decide) (by decide) (by decide)
    101 MovePos.absent (JsVal.str ("x")) JsVal.undefined
  exact h

/-- Claim C4 (cross-board move rejection): moving a task to an existing
column of a different board fails with `Forbidden` (status 403, a distinct
kind from `NotFound`), and the store — hence the task's `column_id` and
`position` — is unchanged: the error is raised before the write. -/
theorem cross_board_move_forbidden
    (s : Store) (userId taskId targetColumnId : Nat) (task : Task) (column : Column)
    (np : MovePos)
    (hfind : findTaskByIdForUser s taskId userId = some task)
    (hcol : findColumnById s targetColumnId = some column)
    (hdiff : column.board_id ≠ task.board_id) :
    moveTaskForUser s userId taskId targetColumnId np = (.error .Forbidden, s) ∧
    Err.Forbidden.status = 403 ∧ Err.Forbidden ≠ Err.NotFound := by
  refine ⟨?_, rfl, by decide⟩
  unfold moveTaskForUser
  rw [hfind, hcol]
  have hb : (column.board_id != task.board_id) = true := by simp [hdiff]
  simp only [hb, if_true]

/-- Witness for C4: in `baseStore`, moving user 1's task 1000 into column
200 (which belongs to board 20, not board 10) is `Forbidden` and leaves the
store unchanged. -/
theorem cross_board_move_forbidden_witness :
    moveTaskForUser baseStore 1 1000 200 .absent = (.error .Forbidden, baseStore) ∧
    Err.Forbidden.status = 403 ∧ Err.Forbidden ≠ Err.NotFound :=
  cross_board_move_forbidden baseStore 1 1000 200 taskA colTodoB MovePos.absent
    (by decide) (by decide) (by decide)

/-- With pairwise-distinct task ids, the row `moveTaskToColumn` updates
(`WHERE id = $3`) is exactly the row `findTaskByIdForUser` authorized. -/
lemma find_for_move (s : Store) (taskId userId : Nat) (task : Task)
    (hids : (s.tasks.map Task.id).Nodup)
    (hfind : findTaskByIdForUser s taskId userId = some task) :
    s.tasks.find? (fun x => x.id == taskId) = some task := by
  have hmem : task ∈ s.tasks := List.mem_of_find?_eq_some hfind
  have hp := List.find?_some hfind
  simp only [Bool.and_eq_true, beq_iff_eq] at hp
  apply find?_eq_some_of_unique_id hids hmem
  · simp [hp.1.1]
  · intro x hx hq
    simp only [beq_iff_eq] at hq
    rw [hq]
    exact hp.1.1.symm

/-- With pairwise-distinct task ids, the row `updateTask` updates
(`WHERE id = $3 AND is_deleted = false`) is exactly the row
`findTaskByIdForUser` authorized. -/
lemma find_for_update (s : Store) (taskId userId : Nat) (task : Task)
    (hids : (s.tasks.map Task.id).Nodup)
    (hfind : findTaskByIdForUser s taskId userId = some task) :
    s.tasks.find? (fun x => x.id == taskId && x.is_deleted == false) = some task := by
  have hmem : task ∈ s.tasks := List.mem_of_find?_eq_some hfind
  have hp := List.find?_some hfind
  simp only [Bool.and_eq_true, beq_iff_eq] at hp
  apply find?_eq_some_of_unique_id hids hmem
  · simp [hp.1.1, hp.2]
  · intro x hx hq
    simp only [Bool.and_eq_true, beq_iff_eq] at hq
    rw [hq.1]
    exact hp.1.1.symm

/-- Shape of a successful Move: authorized task found, target column on the
same board; the service writes the target column id and the effective
position, leaving every other field of the task — `updated_at` included —
exactly as it was. -/
lemma moveTaskForUser_success
    (s : Store) (userId taskId targetColumnId : Nat) (task : Task) (column : Column)
    (np : MovePos)
    (hids : (s.tasks.map Task.id).Nodup)
    (hfind : findTaskByIdForUser s taskId userId = some task)
    (hcol : findColumnById s targetColumnId = some column)
    (hsame : column.board_id = task.board_id) :
    moveTaskForUser s userId taskId targetColumnId np =
      (.ok (some { task with
                    column_id := column.id,
                    position := effectiveMovePosition np (getNextPositionForColumn s column.id) }),
       { s with tasks := s.tasks.map (fun t =>
          if t.id == taskId then
            { t with column_id := column.id,
                     position := effectiveMovePosition np (getNextPositionForColumn s column.id) }
          else t) }) := by
  have hfm := find_for_move s taskId userId task hids hfind
  have htid : (task.id == taskId) = true := by
    have hp := List.find?_some hfind
    simp only [Bool.and_eq_true] at hp
    exact hp.1.1
  have hbne : (column.board_id != task.board_id) = false := by simp [hsame]
  unfold moveTaskForUser
  rw [hfind, hcol]
  simp only [hbne, Bool.false_eq_true, if_false]
  unfold moveTaskToColumn
  rw [hfm]
  have htid' : task.id = taskId := by simpa using htid
  simp [htid']

/-- Claim C2 (divergence evidence): a successful Move sets the target
column id and the chosen position, but does NOT refresh `updated_at`: in
`baseStore` the clock reads 10, task 1000 was last updated at 5, and after
moving it to column 101 its `updated_at` still reads 5.  The repository's
`UPDATE tasks SET column_id = $1, position = $2` omits the
`updated_at = NOW()` that the project's own database documentation shows
for this query. -/
theorem move_does_not_refresh_updated_at :
    ∃ (task : Task) (s' : Store),
      moveTaskForUser baseStore 1 1000 101 MovePos.absent = (.ok (some task), s') ∧
      task.column_id = 101 ∧ task.position = 1 ∧
      baseStore.now = 10 ∧ taskA.updated_at = 5 ∧ task.updated_at = 5 :=
  ⟨_, _, rfl, rfl, rfl, rfl, rfl, rfl⟩

/-- Claim C7 counterexample: a whitespace-only title — which trims to the
empty string — is NOT rejected: `createTaskController` only checks JS
truthiness (`if (!title)`), and `" "` is truthy, so a task is created with
the whitespace title. -/
theorem whitespace_title_accepted :
    ∃ (task : Task) (s' : Store),
      createTaskController baseStore 1 (.str (" ")) .undefined ("pastel-pink") = (.ok task, s') ∧
      task.title = " " ∧ trimsToEmpty task.title = true ∧ task.is_deleted = false ∧
      s'.tasks.length = baseStore.tasks.length + 1 :=
  ⟨_, _, rfl, rfl, by decide, rfl, rfl⟩

/-- Claim C7 as amended: the Create operation rejects with a
`ValidationError` (status 400) any request whose title is falsy — absent
(`undefined`/`null`) or the empty string — before any task is inserted: on
rejection the store is returned unchanged.  (Whitespace-only titles are
truthy and are not rejected.) -/
theorem falsy_title_rejected (s : Store) (userId : Nat) (title description : JsVal)
    (color : String) (h : title.falsy = true) :
    createTaskController s userId title description color = (.error .ValidationError, s) ∧
    Err.ValidationError.status = 400 := by
  cases title with
  | undefined => exact ⟨rfl, rfl⟩
  | null => exact ⟨rfl, rfl⟩
  | str t =>
    simp only [JsVal.falsy] at h
    refine ⟨?_, rfl⟩
    unfold createTaskController
    simp [h]

/-- Witness for the amended C7: the empty-string title is rejected with
`ValidationError` and the store is unchanged. -/
theorem falsy_title_rejected_witness :
    createTaskController baseStore 1 (.str ("")) .undefined ("pastel-blue") =
      (.error .ValidationError, baseStore) ∧
    Err.ValidationError.status = 400 :=
  falsy_title_rejected baseStore 1 (.str ("")) .undefined ("pastel-blue") (by decide)

/-- Claim C8 counterexample: a negative `newPosition` is NOT replaced by
`nextPosition` — `-1` is truthy and numeric in JS, so the guard
`!positionToUse || Number.isNaN(Number(positionToUse))` lets it through and
the task is stored at position `-1`, not appended at position 1. -/
theorem negative_position_applied_not_appended :
    ∃ (task : Task) (s' : Store),
      moveTaskForUser baseStore 1 1000 101 (.intVal (-1)) = (.ok (some task), s') ∧
      task.position = -1 ∧
      getNextPositionForColumn baseStore 101 = 1 ∧
      task.position < 0 ∧ task.position ≠ getNextPositionForColumn baseStore 101 :=
  ⟨_, _, rfl, rfl, rfl, by decide, by decide⟩

/-- Claim C8 as amended: when `newPosition` is absent, non-numeric, or
zero (the falsy/NaN cases of the guard), the applied position is
`nextPosition(targetColumnId)` — append-to-end; any other supplied numeric
value, positive or negative, is applied exactly as given. -/
theorem move_position_semantics
    (s : Store) (userId taskId targetColumnId : Nat) (task : Task) (column : Column)
    (hids : (s.tasks.map Task.id).Nodup)
    (hfind : findTaskByIdForUser s taskId userId = some task)
    (hcol : findColumnById s targetColumnId = some column)
    (hsame : column.board_id = task.board_id) :
    (∀ np : MovePos, np.usesFallback = true →
      (moveTaskForUser s userId taskId targetColumnId np).1 =
        .ok (some { task with
                     column_id := column.id,
                     position := getNextPositionForColumn s column.id })) ∧
    (∀ v : Int, v ≠ 0 →
      (moveTaskForUser s userId taskId targetColumnId (.intVal v)).1 =
        .ok (some { task with column_id := column.id, position := v })) := by
  constructor
  · intro np hnp
    rw [moveTaskForUser_success s userId taskId targetColumnId task column np
      hids hfind hcol hsame]
    have heff : effectiveMovePosition np (getNextPositionForColumn s column.id) =
        getNextPositionForColumn s column.id := by
      cases np with
      | absent => rfl
      | nonNumeric => rfl
      | intVal v =>
        simp only [MovePos.usesFallback, beq_iff_eq] at hnp
        simp [effectiveMovePosition, hnp]
    rw [heff]
  · intro v hv
    rw [moveTaskForUser_success s userId taskId targetColumnId task column (.intVal v)
      hids hfind hcol hsame]
    have heff : effectiveMovePosition (.intVal v) (getNextPositionForColumn s column.id) = v := by
      simp [effectiveMovePosition, hv]
    rw [heff]

/-- Witness for the amended C8: in `baseStore`, an absent position moves
task 1000 to the end of column 101 (position 1), and an explicit position 7
is applied as given. -/
theorem move_position_semantics_witness :
    (moveTaskForUser baseStore 1 1000 101 .absent).1 =
      .ok (some { taskA with
                   column_id := colProgA.id,
                   position := getNextPositionForColumn baseStore colProgA.id }) ∧
    (moveTaskForUser baseStore 1 1000 101 (.intVal 7)).1 =
      .ok (some { taskA with column_id := colProgA.id, position := 7 }) := by
  have h := move_position_semantics baseStore 1 1000 101 taskA colProgA
    (by decide) (by decide) (by decide) (by decide)
  exact ⟨h.1 MovePos.absent (by decide), h.2 7 (by decide)⟩

/-- Shape of a successful Update: the authorized row gets
`COALESCE`-semantics for `title` and `description` and a fresh
`updated_at`; every other field is untouched. -/
lemma updateTaskForUser_success
    (s : Store) (userId taskId : Nat) (task : Task) (title description : JsVal)
    (hids : (s.tasks.map Task.id).Nodup)
    (hfind : findTaskByIdForUser s taskId userId = some task) :
    (updateTaskForUser s userId taskId title description).1 =
      .ok (some { task with
                   title := title.toSql.getD task.title,
                   description := match description.toSql with
                                  | none => task.description
                                  | some d => some d,
                   updated_at := s.now }) := by
  have hfu := find_for_update s taskId userId task hids hfind
  have hq := List.find?_some hfu
  simp only [Bool.and_eq_true, beq_iff_eq] at hq
  unfold updateTaskForUser
  rw [hfind]
  unfold updateTask
  rw [hfu]
  simp [hq.1, hq.2]

/-- Claim C6 (round-trip of partial update): on a successful Update of an
active task, only the provided fields change.  Updating only the title
leaves `description`, `color`, `column_id`, `position` and `is_deleted`
exactly as before (the `undefined` description reaches SQL as `NULL` and
`COALESCE` keeps the old value — it is never coalesced to `null`), and
symmetrically for a description-only update. -/
theorem update_partial_frame
    (s : Store) (userId taskId : Nat) (task : Task)
    (hids : (s.tasks.map Task.id).Nodup)
    (hfind : findTaskByIdForUser s taskId userId = some task) :
    (∀ v : String,
      (updateTaskForUser s userId taskId (.str v) .undefined).1 =
        .ok (some { task with title := v, updated_at := s.now })) ∧
    (∀ d : String,
      (updateTaskForUser s userId taskId .undefined (.str d)).1 =
        .ok (some { task with description := some d, updated_at := s.now })) := by
  constructor
  · intro v
    rw [updateTaskForUser_success s userId taskId task (.str v) .undefined hids hfind]
    rfl
  · intro d
    rw [updateTaskForUser_success s userId taskId task .undefined (.str d) hids hfind]
    rfl

/-- Witness for C6: updating only the title of task 1000 keeps its
description `"2 liters"` (and all other fields); updating only the
description keeps its title. -/
theorem update_partial_frame_witness :
    (updateTaskForUser baseStore 1 1000 (.str ("Buy oat milk")) .undefined).1 =
      .ok (some { taskA with title := "Buy oat milk", updated_at := baseStore.now }) ∧
    (updateTaskForUser baseStore 1 1000 .undefined (.str ("3 liters"))).1 =
      .ok (some { taskA with description := some ("3 liters"), updated_at := baseStore.now }) := by
  have h := update_partial_frame baseStore 1 1000 taskA (by decide) (by decide)
  exact ⟨h.1 ("Buy oat milk"), h.2 ("3 liters")⟩

/-- Claim C10 (null never clears a field): an Update invoked with an
explicit `null` for title or description leaves that field at its previous
value — the SQL `COALESCE` turns the `NULL` parameter into the old value —
so a non-null description can never become null through Update, whatever
the inputs. -/
theorem update_null_keeps_field
    (s : Store) (userId taskId : Nat) (task : Task)
    (hids : (s.tasks.map Task.id).Nodup)
    (hfind : findTaskByIdForUser s taskId userId = some task) :
    (∀ d : String,
      (updateTaskForUser s userId taskId .null (.str d)).1 =
        .ok (some { task with description := some d, updated_at := s.now })) ∧
    (∀ v : String,
      (updateTaskForUser s userId taskId (.str v) .null).1 =
        .ok (some { task with title := v, updated_at := s.now })) ∧
    (∀ (title description : JsVal) (r : Task),
      (updateTaskForUser s userId taskId title description).1 = .ok (some r) →
      task.description.isSome = true → r.description.isSome = true) := by
  refine ⟨?_, ?_, ?_⟩
  · intro d
    rw [updateTaskForUser_success s userId taskId task .null (.str d) hids hfind]
    rfl
  · intro v
    rw [updateTaskForUser_success s userId taskId task (.str v) .null hids hfind]
    rfl
  · intro title description r hr hsome
    rw [updateTaskForUser_success s userId taskId task title description hids hfind] at hr
    simp only [Except.ok.injEq, Option.some.injEq] at hr
    subst hr
    cases hde : description.toSql <;> simp [hde, hsome]

/-- Witness for C10: an explicit `null` title with a new description keeps
the old title; an explicit `null` description with a new title keeps the
description `"2 liters"`; and the generic no-clearing fact applied to a
concrete update. -/
theorem update_null_keeps_field_witness :
    (updateTaskForUser baseStore 1 1000 .null (.str ("4 liters"))).1 =
      .ok (some { taskA with description := some ("4 liters"), updated_at := baseStore.now }) ∧
    (updateTaskForUser baseStore 1 1000 (.str ("Buy tea")) .null).1 =
      .ok (some { taskA with title := "Buy tea", updated_at := baseStore.now }) := by
  have h := update_null_keeps_field baseStore 1 1000 taskA (by decide) (by decide)
  exact ⟨h.1 ("4 liters"), h.2.1 ("Buy tea")⟩

/-- A row just cleared by the bulk soft-delete no longer matches its
`WHERE` clause. -/
lemma doneHit_clearDone (b c nw : Nat) (x : Task) :
    doneHit b c (clearDone b c nw x) = false := by
  unfold clearDone
  by_cases hx : doneHit b c x = true
  · rw [if_pos hx]
    unfold doneHit
    simp
  · rw [if_neg hx]
    exact Bool.not_eq_true _ |>.mp hx

/-- After one bulk clear, no row of the list matches the clause. -/
lemma clearDone_filter (b c nw : Nat) (l : List Task) :
    (l.map (clearDone b c nw)).filter (doneHit b c) = [] := by
  apply List.filter_eq_nil_iff.mpr
  intro a ha
  rcases List.mem_map.mp ha with ⟨y, _, rfl⟩
  simp [doneHit_clearDone]

/-- Clearing an already-cleared row is the identity (whatever the clock reads). -/
lemma clearDone_clearDone (b c nw nw2 : Nat) (x : Task) :
    clearDone b c nw2 (clearDone b c nw x) = clearDone b c nw x := by
  have h := doneHit_clearDone b c nw x
  generalize clearDone b c nw x = y at h ⊢
  unfold clearDone
  rw [h]
  simp

/-- A second bulk clear maps every already-cleared row to itself. -/
lemma clearDone_idem_map (b c nw nw2 : Nat) (l : List Task) :
    (l.map (clearDone b c nw)).map (clearDone b c nw2) = l.map (clearDone b c nw) := by
  conv_rhs => rw [show l.map (clearDone b c nw) = (l.map (clearDone b c nw)).map id from
    (List.map_id _).symm]
  apply List.map_congr_left
  intro y hy
  rcases List.mem_map.mp hy with ⟨x, _, rfl⟩
  rw [id_eq]
  exact clearDone_clearDone b c nw nw2 x

/-- Shape of a successful bulk clear: board and DONE column resolved, the
count is the number of active rows of that board in that column, and
exactly those rows get `is_deleted = true, deleted_at = NOW()`. -/
lemma removeDone_success (s : Store) (userId : Nat) (board : Board) (doneColumn : Column)
    (hb : findBoardByOwnerId s userId = some board)
    (hd : findDoneColumnForBoard s board.id = some doneColumn) :
    removeDoneTasksForMyBoard s userId =
      (.ok ((s.tasks.filter (doneHit board.id doneColumn.id)).length),
       { s with tasks := s.tasks.map (clearDone board.id doneColumn.id s.now) }) := by
  simp [removeDoneTasksForMyBoard, hb, hd, softDeleteDoneTasksForBoard]

/-- Claim C5 (bulk-clear idempotence): if a bulk clear of DONE succeeds
with count `k` and store `s1`, then an immediately repeated call returns
count `0` with the very same store `s1` — so the board's active task set is
identical after both calls — and when the DONE column holds no active task
to begin with, the first call already returns `k = 0` (no error). -/
theorem bulk_clear_done_idempotent (s : Store) (userId k : Nat) (s1 : Store)
    (h : removeDoneTasksForMyBoard s userId = (.ok k, s1)) :
    removeDoneTasksForMyBoard s1 userId = (.ok 0, s1) ∧
    (∀ b, getActiveTasksByBoardId (removeDoneTasksForMyBoard s1 userId).2 b =
          getActiveTasksByBoardId s1 b) ∧
    (∀ board doneColumn,
      findBoardByOwnerId s userId = some board →
      findDoneColumnForBoard s board.id = some doneColumn →
      (∀ t ∈ s.tasks, t.column_id = doneColumn.id → t.is_deleted = true) → k = 0) := by
  cases hb : findBoardByOwnerId s userId with
  | none => simp [removeDoneTasksForMyBoard, hb] at h
  | some board =>
    cases hd : findDoneColumnForBoard s board.id with
    | none => simp [removeDoneTasksForMyBoard, hb, hd] at h
    | some doneColumn =>
      rw [removeDone_success s userId board doneColumn hb hd] at h
      simp only [Prod.mk.injEq, Except.ok.injEq] at h
      obtain ⟨hk, hs⟩ := h
      have hb1 : findBoardByOwnerId s1 userId = some board := by rw [← hs]; exact hb
      have hd1 : findDoneColumnForBoard s1 board.id = some doneColumn := by rw [← hs]; exact hd
      have htasks : s1.tasks = s.tasks.map (clearDone board.id doneColumn.id s.now) := by
        rw [← hs]
      have hsecond := removeDone_success s1 userId board doneColumn hb1 hd1
      refine ⟨?_, ?_, ?_⟩
      · rw [hsecond, htasks, clearDone_filter, clearDone_idem_map, ← htasks]
        rfl
      · intro b
        rw [hsecond, htasks, clearDone_idem_map, ← htasks]
      · intro board2 doneColumn2 hb2 hd2 hempty
        injection hb2 with hbe
        subst hbe
        rw [hd] at hd2
        injection hd2 with hde
        subst hde
        rw [← hk]
        have hnil : s.tasks.filter (doneHit board.id doneColumn.id) = [] := by
          apply List.filter_eq_nil_iff.mpr
          intro a ha hhita
          unfold doneHit at hhita
          simp only [Bool.and_eq_true, beq_iff_eq] at hhita
          have hadel := hempty a ha hhita.1.2
          rw [hadel] at hhita
          exact absurd hhita.2 (by simp)
        rw [hnil]
        rfl

/-- Witness for C5: in `doneStore` (one active task in user 1's DONE
column) the first bulk clear removes 1 task, the second removes 0 and
returns the very same store, so the active task set is unchanged. -/
theorem bulk_clear_done_idempotent_witness :
    removeDoneTasksForMyBoard (removeDoneTasksForMyBoard doneStore 1).2 1 =
      (.ok 0, (removeDoneTasksForMyBoard doneStore 1).2) := by
  have h := bulk_clear_done_idempotent doneStore 1 1 (removeDoneTasksForMyBoard doneStore 1).2 rfl
  exact h.1

/-- The store a Create leaves behind: either untouched (error path) or the
old rows plus one fresh row whose id is the fresh-id counter. -/
lemma createTaskForUser_store (s : Store) (u : Nat) (ti : String) (d : Option String)
    (c : String) :
    (createTaskForUser s u ti d c).2 = s ∨
    ∃ newT : Task, newT.id = s.next_id ∧
      (createTaskForUser s u ti d c).2 =
        { s with tasks := s.tasks ++ [newT], next_id := s.next_id + 1 } := by
  unfold createTaskForUser
  cases hfc : findTodoColumnForUser s u with
  | none => left; rfl
  | some bc =>
    rcases bc with ⟨b, oc⟩
    cases oc with
    | none => left; rfl
    | some col =>
      right
      exact ⟨_, rfl, rfl⟩

/-- The store a Move leaves behind: either untouched (error path) or the
rows mapped by the `UPDATE ... WHERE id = $3` transformer, which never
touches `is_deleted` and never changes an id. -/
lemma moveTaskForUser_store (s : Store) (u tid tc : Nat) (np : MovePos) :
    (moveTaskForUser s u tid tc np).2 = s ∨
    ∃ cid : Nat, ∃ pos : Int,
      (moveTaskForUser s u tid tc np).2 =
        { s with tasks := s.tasks.map (fun x =>
           if x.id == tid then { x with column_id := cid, position := pos } else x) } := by
  unfold moveTaskForUser
  cases hf : findTaskByIdForUser s tid u with
  | none => left; rfl
  | some task =>
    dsimp only
    cases hc : findColumnById s tc with
    | none => left; rfl
    | some column =>
      dsimp only
      cases hbne : (column.board_id != task.board_id)
      · right
        exact ⟨column.id, _, rfl⟩
      · left
        rfl

/-- The store an Update leaves behind: either untouched (error path) or the
rows mapped by the `UPDATE ... WHERE id = $3 AND is_deleted = false`
transformer, which never touches `is_deleted` and never changes an id. -/
lemma updateTaskForUser_store (s : Store) (u tid : Nat) (tt dd : JsVal) :
    (updateTaskForUser s u tid tt dd).2 = s ∨
    (updateTaskForUser s u tid tt dd).2 =
      { s with tasks := s.tasks.map (fun x =>
         if x.id == tid && x.is_deleted == false then
           { x with title := tt.toSql.getD x.title,
                    description := match dd.toSql with
                                   | none => x.description
                                   | some d => some d,
                    updated_at := s.now }
         else x) } := by
  unfold updateTaskForUser
  cases hf : findTaskByIdForUser s tid u with
  | none => left; rfl
  | some task =>
    right
    unfold updateTask
    rfl

/-- The store a bulk clear leaves behind: either untouched (error path) or
the rows mapped by `clearDone`, which never changes an id and only ever
sets `is_deleted` to `true`. -/
lemma removeDoneTasksForMyBoard_store (s : Store) (u : Nat) :
    (removeDoneTasksForMyBoard s u).2 = s ∨
    ∃ b c : Nat, (removeDoneTasksForMyBoard s u).2 =
      { s with tasks := s.tasks.map (clearDone b c s.now) } := by
  unfold removeDoneTasksForMyBoard
  cases hb : findBoardByOwnerId s u with
  | none => left; rfl
  | some board =>
    dsimp only
    cases hd : findDoneColumnForBoard s board.id with
    | none => left; rfl
    | some doneColumn =>
      right
      exact ⟨board.id, doneColumn.id, rfl⟩

/-- Claim C9 (soft-delete exclusion): a soft-deleted task is excluded from
the board aggregate read and from `findTaskByIdForUser` (reads are pure, so
this holds for every repetition of the read), it is never counted by the
`nextPosition` computation, and no core operation — Create, Move, Update or
bulk clear — ever brings a row with its id back to life. -/
theorem soft_deleted_never_read (s : Store) (t : Task)
    (ht : t ∈ s.tasks) (hdel : t.is_deleted = true)
    (hids : (s.tasks.map Task.id).Nodup)
    (hfresh : ∀ x ∈ s.tasks, x.id < s.next_id) :
    (∀ boardId, t ∉ getActiveTasksByBoardId s boardId) ∧
    (∀ taskId userId, findTaskByIdForUser s taskId userId ≠ some t) ∧
    (∀ columnId, getNextPositionForColumn s columnId =
       getNextPositionForColumn { s with tasks := s.tasks.erase t } columnId) ∧
    (∀ u ti d c, ∀ x ∈ (createTaskForUser s u ti d c).2.tasks,
      x.id = t.id → x.is_deleted = true) ∧
    (∀ u tid tc np, ∀ x ∈ (moveTaskForUser s u tid tc np).2.tasks,
      x.id = t.id → x.is_deleted = true) ∧
    (∀ u tid tt dd, ∀ x ∈ (updateTaskForUser s u tid tt dd).2.tasks,
      x.id = t.id → x.is_deleted = true) ∧
    (∀ u, ∀ x ∈ (removeDoneTasksForMyBoard s u).2.tasks,
      x.id = t.id → x.is_deleted = true) := by
  have hbase : ∀ x ∈ s.tasks, x.id = t.id → x.is_deleted = true := by
    intro x hx hxid
    rw [List.inj_on_of_nodup_map hids hx ht hxid]
    exact hdel
  refine ⟨?_, ?_, ?_, ?_, ?_, ?_, ?_⟩
  · intro boardId hmem
    have hp := (List.mem_filter.mp hmem).2
    rw [hdel] at hp
    simp at hp
  · intro taskId userId hsome
    have hp := List.find?_some hsome
    rw [hdel] at hp
    simp at hp
  · intro columnId
    unfold getNextPositionForColumn
    rw [show ({ s with tasks := s.tasks.erase t } : Store).tasks = s.tasks.erase t from rfl,
      maxActivePosition_erase columnId t hdel s.tasks]
  · intro u ti d c x hx hxid
    rcases createTaskForUser_store s u ti d c with hsame | ⟨newT, hnid, hshape⟩
    · rw [hsame] at hx
      exact hbase x hx hxid
    · rw [hshape] at hx
      rcases List.mem_append.mp hx with hmem | hnew
      · exact hbase x hmem hxid
      · rw [List.mem_singleton] at hnew
        subst hnew
        rw [hnid] at hxid
        have := hfresh t ht
        omega
  · intro u tid tc np x hx hxid
    rcases moveTaskForUser_store s u tid tc np with hsame | ⟨cid, pos, hshape⟩
    · rw [hsame] at hx
      exact hbase x hx hxid
    · rw [hshape] at hx
      refine map_keeps_deleted_id _ ?_ hids ht hdel x hx hxid
      intro y
      cases hy : (y.id == tid) <;> simp
  · intro u tid tt dd x hx hxid
    rcases updateTaskForUser_store s u tid tt dd with hsame | hshape
    · rw [hsame] at hx
      exact hbase x hx hxid
    · rw [hshape] at hx
      refine map_keeps_deleted_id _ ?_ hids ht hdel x hx hxid
      intro y
      cases hy : (y.id == tid && y.is_deleted == false) <;> simp
  · intro u x hx hxid
    rcases removeDoneTasksForMyBoard_store s u with hsame | ⟨b, c, hshape⟩
    · rw [hsame] at hx
      exact hbase x hx hxid
    · rw [hshape] at hx
      refine map_keeps_deleted_id _ ?_ hids ht hdel x hx hxid
      intro y
      unfold clearDone
      cases hy : doneHit b c y <;> simp

/-- Witness for C9: the soft-deleted task 1000 is absent from the board
read of board 10, is not returned by `findTaskByIdForUser`, and erasing it
does not change `nextPosition` of its column. -/
theorem soft_deleted_never_read_witness :
    taskADeleted ∉ getActiveTasksByBoardId deletedStore 10 ∧
    findTaskByIdForUser deletedStore 1000 1 ≠ some taskADeleted ∧
    getNextPositionForColumn deletedStore 100 =
      getNextPositionForColumn
        { deletedStore with tasks := deletedStore.tasks.erase taskADeleted } 100 := by
  have h := soft_deleted_never_read deletedStore taskADeleted
    (by decide) (by decide) (by decide) (by decide)
  exact ⟨h.1 10, h.2.1 1000 1, h.2.2.1 100⟩

/-- Shape of a successful Create once board and TODO column resolve: the
new row is appended with `position = nextPosition(todo)`, the request title,
description and color, and the fresh id. -/
lemma createTaskForUser_step (s : Store) (u : Nat) (ti : String) (d : Option String)
    (c : String) (b : Board) (col : Column)
    (hfind : findTodoColumnForUser s u = some (b, some col)) :
    (createTaskForUser s u ti d c).2 =
      { s with
         tasks := s.tasks ++
           [{ id := s.next_id, board_id := b.id, column_id := col.id, title := ti,
              description := d, position := getNextPositionForColumn s col.id,
              color := c, is_deleted := false, deleted_at := none,
              created_at := s.now, updated_at := s.now }],
         next_id := s.next_id + 1 } := by
  unfold createTaskForUser
  rw [hfind]
  dsimp only
  rfl

/-- Core induction for C3: starting from a store whose TODO column's
active rows carry SQL maximum `k` (with `k = 0` meaning "no active row"),
the creations of an arbitrary request list append exactly one row per
request — carrying that request's title, in list order — with positions
`k+1, …, k+n`, all active and in the TODO column. -/
lemma createSeq_spec (u : Nat) (b : Board) (col : Column) :
    ∀ (reqs : List CreateReq) (s : Store) (k : Nat),
      findTodoColumnForUser s u = some (b, some col) →
      maxActivePosition col.id s.tasks = (if k = 0 then none else some (k : Int)) →
      ∃ rest : List Task,
        (createSeq u reqs s).tasks = s.tasks ++ rest ∧
        rest.map Task.position =
          (List.range reqs.length).map (fun (i : Nat) => ((k : Int) + (i : Int) + 1)) ∧
        rest.map Task.title = reqs.map CreateReq.title ∧
        ∀ x ∈ rest, x.column_id = col.id ∧ x.is_deleted = false := by
  intro reqs
  induction reqs with
  | nil =>
    intro s k hfind hmax
    exact ⟨[], by simp [createSeq], by simp, by simp, by simp⟩
  | cons r reqs ih =>
    intro s k hfind hmax
    have hpos : getNextPositionForColumn s col.id = (k : Int) + 1 := by
      unfold getNextPositionForColumn
      rw [hmax]
      by_cases hk : k = 0
      · subst hk; simp
      · rw [if_neg hk]; rfl
    have hstep := createTaskForUser_step s u r.title r.description r.color b col hfind
    rw [hpos] at hstep
    have hfind2 : findTodoColumnForUser (createTaskForUser s u r.title r.description r.color).2 u =
        some (b, some col) := by
      rw [hstep]; exact hfind
    have hmax2 : maxActivePosition col.id
        (createTaskForUser s u r.title r.description r.color).2.tasks =
        (if k + 1 = 0 then none else some ((k + 1 : Nat) : Int)) := by
      rw [hstep]
      rw [show ({ s with
         tasks := s.tasks ++
           [{ id := s.next_id, board_id := b.id, column_id := col.id, title := r.title,
              description := r.description, position := (k : Int) + 1,
              color := r.color, is_deleted := false, deleted_at := none,
              created_at := s.now, updated_at := s.now }],
         next_id := s.next_id + 1 } : Store).tasks = s.tasks ++
           [{ id := s.next_id, board_id := b.id, column_id := col.id, title := r.title,
              description := r.description, position := (k : Int) + 1,
              color := r.color, is_deleted := false, deleted_at := none,
              created_at := s.now, updated_at := s.now }] from rfl]
      rw [maxActivePosition_append, hmax]
      have hone : maxActivePosition col.id
          [{ id := s.next_id, board_id := b.id, column_id := col.id, title := r.title,
             description := r.description, position := (k : Int) + 1,
             color := r.color, is_deleted := false, deleted_at := none,
             created_at := s.now, updated_at := s.now }] = some ((k : Int) + 1) := by
        simp [maxActivePosition]
      rw [hone]
      by_cases hk : k = 0
      · subst hk
        simp [omax]
      · rw [if_neg hk, if_neg (by omega)]
        simp only [omax, Option.some.injEq]
        rw [max_eq_right (by omega : (k : Int) ≤ (k : Int) + 1)]
        push_cast
        ring
    obtain ⟨rest2, h1, h2, h2t, h3⟩ :=
      ih (createTaskForUser s u r.title r.description r.color).2 (k + 1) hfind2 hmax2
    refine ⟨{ id := s.next_id, board_id := b.id, column_id := col.id, title := r.title,
              description := r.description, position := (k : Int) + 1,
              color := r.color, is_deleted := false, deleted_at := none,
              created_at := s.now, updated_at := s.now } :: rest2, ?_, ?_, ?_, ?_⟩
    · show (createSeq u reqs (createTaskForUser s u r.title r.description r.color).2).tasks = _
      rw [h1, hstep]
      rw [show ({ s with
         tasks := s.tasks ++
           [{ id := s.next_id, board_id := b.id, column_id := col.id, title := r.title,
              description := r.description, position := (k : Int) + 1,
              color := r.color, is_deleted := false, deleted_at := none,
              created_at := s.now, updated_at := s.now }],
         next_id := s.next_id + 1 } : Store).tasks = s.tasks ++
           [{ id := s.next_id, board_id := b.id, column_id := col.id, title := r.title,
              description := r.description, position := (k : Int) + 1,
              color := r.color, is_deleted := false, deleted_at := none,
              created_at := s.now, updated_at := s.now }] from rfl]
      rw [List.append_assoc]
      rfl
    · simp only [List.length_cons]
      rw [List.map_cons, h2, List.range_succ_eq_map, List.map_cons, List.map_map]
      congr 1
      apply List.map_congr_left
      intro i _
      simp only [Function.comp]
      push_cast
      ring
    · rw [List.map_cons, List.map_cons, h2t]
    · intro x hx
      rcases List.mem_cons.mp hx with rfl | hx2
      · exact ⟨rfl, rfl⟩
      · exact h3 x hx2

/-- Claim C3 (position monotonicity): starting from a store whose TODO
column has no active task, every sequence of Create operations by the
column's owner — each creation with its own title, description and drawn
color — appends exactly one row per request, carrying that request's title
in creation order, with positions `1, 2, …, n`, every one active and in
the TODO column; each position is `getNextPositionForColumn` — the
column's active SQL maximum (or 0) plus one — evaluated at creation time. -/
theorem creations_positions_one_to_n
    (s : Store) (u : Nat) (reqs : List CreateReq) (b : Board) (col : Column)
    (hfind : findTodoColumnForUser s u = some (b, some col))
    (hempty : ∀ x ∈ s.tasks, x.column_id = col.id → x.is_deleted = true) :
    ∃ rest : List Task,
      (createSeq u reqs s).tasks = s.tasks ++ rest ∧
      rest.map Task.position =
        (List.range reqs.length).map (fun (i : Nat) => ((i : Int) + 1)) ∧
      rest.map Task.title = reqs.map CreateReq.title ∧
      ∀ x ∈ rest, x.column_id = col.id ∧ x.is_deleted = false := by
  have hmax : maxActivePosition col.id s.tasks =
      (if 0 = 0 then none else some ((0 : Nat) : Int)) := by
    rw [if_pos rfl]
    exact maxActivePosition_eq_none col.id s.tasks hempty
  obtain ⟨rest, h1, h2, h2t, h3⟩ := createSeq_spec u b col reqs s 0 hfind hmax
  refine ⟨rest, h1, ?_, h2t, h3⟩
  rw [h2]
  apply List.map_congr_left
  intro i _
  push_cast
  ring

/-- Witness for C3: three creations titled A, B, C — with differing
descriptions and colors — into the empty TODO column of board 10 produce
positions `[1, 2, 3]` and titles `[A, B, C]` in creation order. -/
theorem creations_positions_one_to_n_witness :
    ∃ rest : List Task,
      (createSeq 1 reqsABC emptyStore).tasks = emptyStore.tasks ++ rest ∧
      rest.map Task.position =
        (List.range reqsABC.length).map (fun (i : Nat) => ((i : Int) + 1)) ∧
      rest.map Task.title = reqsABC.map CreateReq.title ∧
      ∀ x ∈ rest, x.column_id = colTodoA.id ∧ x.is_deleted = false :=
  creations_positions_one_to_n emptyStore 1 reqsABC boardA colTodoA
    (by decide) (by decide)

end NotesApp
